import Mathlib

/-!
Shallow embedding of the time-tracking extension in `src/src/extension.ts`
(second variant of the file, lines 211-359, which the specification's core
describes: nested `projectStats`, idle suppression, globalState persistence),
together with a small model of its module-level load path.

JavaScript objects used as string-keyed maps are embedded as insertion-ordered
association lists: assigning to an existing key updates it in place, assigning
to a fresh key appends it at the end, exactly as `Object.entries` iteration
order behaves for non-numeric string keys.
-/

namespace CodeLeveling

/-- Lookup in a JS-object-style association list (first matching key wins). -/
def getKey {α : Type} (m : List (String × α)) (k : String) : Option α :=
  match m with
  | [] => none
  | (k', v') :: rest => if k' = k then some v' else getKey rest k

/-- Assignment in a JS-object-style association list: update the first
occurrence of the key in place, or append the binding at the end. -/
def setKey {α : Type} (m : List (String × α)) (k : String) (v : α) : List (String × α) :=
  match m with
  | [] => [(k, v)]
  | (k', v') :: rest => if k' = k then (k, v) :: rest else (k', v') :: setKey rest k v

/-- Sum of the values of an association list (order and duplicates as stored). -/
def sumVals (m : List (String × Nat)) : Nat :=
  match m with
  | [] => 0
  | (_, v) :: rest => v + sumVals rest

/-- One per-day record: `{ totalTime: number, fileStats: { [ext]: number } }`
(extension.ts line 220), with times in milliseconds. -/
structure DayBucket where
  totalTime : Nat
  fileStats : List (String × Nat)
deriving Repr, DecidableEq

/-- The nested `projectStats` map: project name to date key to `DayBucket`
(extension.ts lines 218-222). -/
abbrev Stats := List (String × List (String × DayBucket))

/-! ### Model of the ECMAScript `Date` behavior used by `getCurrentDate`

`getCurrentDate` (extension.ts lines 228-232) combines
`now.toISOString().split('T')[0]` — the calendar date of the UTC instant —
with `dayNames[now.getDay()]` — the weekday of the LOCAL wall-clock instant.
Timestamps are epoch milliseconds (`Int`); `tz` is the local-time offset from
UTC in milliseconds (positive east of Greenwich), so the local wall-clock
instant corresponding to epoch instant `ms` is `ms + tz`. -/

/-- Milliseconds per day. -/
def msPerDay : Int := 86400000

/-- Day number (days since 1970-01-01) containing an epoch-millisecond instant. -/
def epochDays (ms : Int) : Int := Int.fdiv ms msPerDay

/-- Proleptic-Gregorian civil date `(year, month, day)` of a day number,
days counted from 1970-01-01. -/
def civilFromDays (z0 : Int) : Int × Int × Int :=
  let z := z0 + 719468
  let era := Int.fdiv z 146097
  let doe := z - era * 146097
  let yoe := (doe - doe / 1460 + doe / 36524 - doe / 146096) / 365
  let y := yoe + era * 400
  let doy := doe - (365 * yoe + yoe / 4 - yoe / 100)
  let mp := (5 * doy + 2) / 153
  let d := doy - (153 * mp + 2) / 5 + 1
  let m := mp + (if mp < 10 then 3 else -9)
  (if m ≤ 2 then y + 1 else y, m, d)

/-- Zero-pad a month or day component to two digits. -/
def pad2 (n : Int) : String :=
  if n < 10 then "0" ++ toString n else toString n

/-- Zero-pad a year component to four digits (the `toISOString` format for
years 0-9999). -/
def pad4 (n : Int) : String :=
  if n < 10 then "000" ++ toString n
  else if n < 100 then "00" ++ toString n
  else if n < 1000 then "0" ++ toString n
  else toString n

/-- The `YYYY-MM-DD` part of `Date.prototype.toISOString`: the civil date of
the instant in UTC. -/
def isoDatePart (ms : Int) : String :=
  match civilFromDays (epochDays ms) with
  | (y, m, d) => pad4 y ++ "-" ++ pad2 m ++ "-" ++ pad2 d

/-- The weekday table of `getCurrentDate` (extension.ts line 230). -/
def dayNames : List String :=
  ["Sunday", "Monday", "Tuesday", "Wednesday", "Thursday", "Friday", "Saturday"]

/-- Model of `Date.prototype.getDay()` on the local wall-clock instant:
weekday index (0 = Sunday) of the local calendar day. 1970-01-01 was a
Thursday (index 4). -/
def jsGetDay (ms tz : Int) : Nat :=
  ((epochDays (ms + tz) + 4) % 7).toNat

/-- Embedding of `getCurrentDate` (extension.ts lines 228-232): UTC date part
from `toISOString`, weekday name from the local `getDay()`. -/
def getCurrentDate (now tz : Int) : String :=
  isoDatePart now ++ " (" ++ (dayNames.getD (jsGetDay now tz) "") ++ ")"

/-- Modelled from the spec: the date key as the specification words it —
"format \x22YYYY-MM-DD (WeekdayName)\x22, computed from local wall-clock
date" — i.e. BOTH the date part and the weekday name taken from the local
calendar day. Used only to compare against `getCurrentDate`. -/
def localDateKeySpec (now tz : Int) : String :=
  isoDatePart (now + tz) ++ " (" ++ (dayNames.getD (jsGetDay now tz) "") ++ ")"

/-! ### The module state and its operations -/

/-- The module-level mutable state of the extension (extension.ts lines
214-223) together with the `globalState` key it persists to.

`timers` holds one entry per live accounting `setInterval` schedule, the
entry being the `currentDate` string captured by that schedule's closure;
`statsTimers` counts live stats-report schedules. `store` is the content of
`context.globalState` under the `projectStats` key (the empty map standing
for an absent key, as the `get('projectStats', \x7b\x7d)` default makes the
two indistinguishable to this code). -/
structure ExtWorld where
  timerStartTime : Option Int
  timers : List String
  statsTimers : Nat
  projectName : String
  projectStats : Stats
  lastActivityTime : Int
  store : Stats
deriving Repr, DecidableEq

/-- The state at module load (extension.ts lines 214-223): nothing running,
empty in-memory stats, and `lastActivityTime = Date.now()` — the load
instant `t0` — even though no activity was ever signalled. `stored` is
whatever the persisted store already holds. -/
def initialWorld (t0 : Int) (stored : Stats) : ExtWorld :=
  { timerStartTime := none
    timers := []
    statsTimers := 0
    projectName := ""
    projectStats := []
    lastActivityTime := t0
    store := stored }

/-- The bucket-creation step inside `startTrackingTime` (extension.ts lines
244-247): create the project entry, then the day entry with zeroed fields,
each only if absent. -/
def ensureBucket (p d : String) (ps : Stats) : Stats :=
  let ps1 := if (getKey ps p).isSome then ps else setKey ps p []
  match getKey ps1 p with
  | some days =>
      if (getKey days d).isSome then ps1
      else setKey ps1 p (setKey days d { totalTime := 0, fileStats := [] })
  | none => ps1

/-- The project-name resolution of `startTrackingTime` (extension.ts line
241): `workspaceFolders?.[0]?.name || 'Unknown Project'`. `wsName` is
`none` when no workspace folder resolves; the `||` also catches an empty
name. -/
def resolveProject (wsName : Option String) : String :=
  match wsName with
  | some n => if n = "" then "Unknown Project" else n
  | none => "Unknown Project"

/-- Embedding of `startTrackingTime` (extension.ts lines 235-270). Note the
order of the source: `projectStats` is reloaded from the store BEFORE the
already-tracking guard. -/
def startTrackingTime (now tz : Int) (wsName : Option String) (w : ExtWorld) : ExtWorld :=
  let w1 := { w with projectStats := w.store }
  if w1.timerStartTime.isSome then w1
  else
    let pn := resolveProject wsName
    let currentDate := getCurrentDate now tz
    { w1 with
        timerStartTime := some now
        projectName := pn
        projectStats := ensureBucket pn currentDate w1.projectStats
        timers := w1.timers ++ [currentDate]
        statsTimers := w1.statsTimers + 1 }

/-- The accrual applied to the active bucket by one non-idle tick
(extension.ts lines 252-258): add 1000 ms to `totalTime`, and, when the
active file's extension `fileExt` is non-empty, add 1000 ms to its
`fileStats` entry (created at 0 if absent). -/
def accrueBucket (fileExt : String) (b : DayBucket) : DayBucket :=
  let b1 := { b with totalTime := b.totalTime + 1000 }
  if fileExt = "" then b1
  else
    { b1 with
        fileStats := setKey b1.fileStats fileExt
          (((getKey b1.fileStats fileExt).getD 0) + 1000) }

/-- Embedding of the `setInterval` callback of `startTrackingTime`
(extension.ts lines 249-262). `capturedDate` is the `currentDate` the
closure captured at start; `fileExt` is `path.extname(...)` of the active
file (the empty string when unresolvable). If the idle gap exceeds 30000 ms
the tick returns before touching anything; if the bucket the closure
addresses is missing, the JS `+= 1000` throws before mutating anything, so
the state is likewise unchanged. A successful accrual also persists the
whole map to the store (`globalState.update`). -/
def timerTick (capturedDate : String) (now : Int) (fileExt : String) (w : ExtWorld) : ExtWorld :=
  if 30000 < now - w.lastActivityTime then w
  else
    match getKey w.projectStats w.projectName with
    | none => w
    | some days =>
        match getKey days capturedDate with
        | none => w
        | some b =>
            let ps := setKey w.projectStats w.projectName
              (setKey days capturedDate (accrueBucket fileExt b))
            { w with projectStats := ps, store := ps }

/-- Embedding of `stopTrackingTime` (extension.ts lines 273-284): cancel the
schedules and clear `timerStartTime`. -/
def stopTrackingTime (w : ExtWorld) : ExtWorld :=
  { w with timers := [], statsTimers := 0, timerStartTime := none }

/-- Embedding of `onUserActivity` (extension.ts lines 287-289). -/
def onUserActivity (now : Int) (w : ExtWorld) : ExtWorld :=
  { w with lastActivityTime := now }

/-- Model of `(ms / 1000 / 60).toFixed(1)`: the time in minutes rendered to
one decimal place (rounded to the nearest tenth of a minute). -/
def fmtMin (ms : Nat) : String :=
  let tenths := (ms + 3000) / 6000
  toString (tenths / 10) ++ "." ++ toString (tenths % 10)

/-- The per-extension lines of the stats message (extension.ts lines
322-326): one line per `fileStats` entry, in stored (first-recorded) order,
joined by newlines; the `|| "📂 No tracked files"` fallback replaces an
empty rendering. -/
def renderEntries (fs : List (String × Nat)) : String :=
  let fileEntries :=
    String.intercalate "\n" (fs.map (fun p => "- " ++ p.1 ++ ": " ++ fmtMin p.2 ++ " min"))
  if fileEntries = "" then "📂 No tracked files" else fileEntries

/-- Embedding of `showProjectStats` (extension.ts lines 303-329): reload
`projectStats` from the store, then render the current project's bucket for
the current date. Returns the new state and the displayed message. -/
def showProjectStats (now tz : Int) (w : ExtWorld) : ExtWorld × String :=
  let w1 := { w with projectStats := w.store }
  if w1.projectName = "" then (w1, "No stats available.")
  else
    match getKey w1.projectStats w1.projectName with
    | none => (w1, "No stats available.")
    | some stats =>
        let currentDate := getCurrentDate now tz
        match getKey stats currentDate with
        | none => (w1, "No tracked time today.")
        | some data =>
            (w1, "📊 **Project: " ++ w1.projectName ++ "**\n📅 **" ++ currentDate
              ++ "**\n🕒 Total: " ++ fmtMin data.totalTime ++ " min\n"
              ++ renderEntries data.fileStats)

/-- A run of accounting ticks: one `timerTick` per listed firing time, in
order, all against the same captured date and active extension. -/
def runTicks (capturedDate fileExt : String) (ts : List Int) (w : ExtWorld) : ExtWorld :=
  match ts with
  | [] => w
  | t :: rest => runTicks capturedDate fileExt rest (timerTick capturedDate t fileExt w)

/-! ### Association-list lemmas -/

@[simp]
theorem getKey_setKey_self {α : Type} (m : List (String × α)) (k : String) (v : α) :
    getKey (setKey m k v) k = some v := by
  induction m with
  | nil => simp [setKey, getKey]
  | cons hd tl ih =>
      obtain ⟨k', v'⟩ := hd
      by_cases h : k' = k
      · simp [setKey, getKey, h]
      · simp [setKey, getKey, h, ih]

theorem getKey_setKey_ne {α : Type} (m : List (String × α)) (k k' : String) (v : α)
    (h : k' ≠ k) : getKey (setKey m k v) k' = getKey m k' := by
  induction m with
  | nil => simp [setKey, getKey, Ne.symm h]
  | cons hd tl ih =>
      obtain ⟨k0, v0⟩ := hd
      by_cases h0 : k0 = k
      · subst h0
        simp [setKey, getKey, Ne.symm h]
      · by_cases h1 : k0 = k'
        · simp [setKey, getKey, h0, h1, h]
        · simp [setKey, getKey, h0, h1, ih]

theorem setKey_of_getKey_none {α : Type} (m : List (String × α)) (k : String) (v : α)
    (h : getKey m k = none) : setKey m k v = m ++ [(k, v)] := by
  induction m with
  | nil => simp [setKey]
  | cons hd tl ih =>
      obtain ⟨k0, v0⟩ := hd
      by_cases h0 : k0 = k
      · simp [getKey, h0] at h
      · simp [getKey, h0] at h
        simp [setKey, h0, ih h]

theorem keys_setKey {α : Type} (m : List (String × α)) (k : String) (v : α) :
    (setKey m k v).map Prod.fst =
      if (getKey m k).isSome then m.map Prod.fst else m.map Prod.fst ++ [k] := by
  induction m with
  | nil => simp [setKey, getKey]
  | cons hd tl ih =>
      obtain ⟨k0, v0⟩ := hd
      by_cases h0 : k0 = k
      · simp [setKey, getKey, h0]
      · simp only [setKey, getKey, if_neg h0, List.map_cons, ih]
        by_cases h1 : (getKey tl k).isSome <;> simp [h1]

theorem sumVals_setKey_add (m : List (String × Nat)) (k : String) (c : Nat) :
    sumVals (setKey m k (((getKey m k).getD 0) + c)) = sumVals m + c := by
  induction m with
  | nil => simp [setKey, getKey, sumVals]
  | cons hd tl ih =>
      obtain ⟨k0, v0⟩ := hd
      by_cases h0 : k0 = k
      · simp [setKey, getKey, h0, sumVals]
        omega
      · simp only [setKey, getKey, if_neg h0, sumVals, ih]
        omega

/-! ### Basic facts about one accrual -/

theorem accrueBucket_totalTime (fileExt : String) (b : DayBucket) :
    (accrueBucket fileExt b).totalTime = b.totalTime + 1000 := by
  by_cases h : fileExt = "" <;> simp [accrueBucket, h]

theorem accrueBucket_getKey_self (fileExt : String) (b : DayBucket) (h : fileExt ≠ "") :
    getKey (accrueBucket fileExt b).fileStats fileExt =
      some (((getKey b.fileStats fileExt).getD 0) + 1000) := by
  simp [accrueBucket, h]

theorem accrueBucket_getKey_ne (fileExt e : String) (b : DayBucket) (h : e ≠ fileExt) :
    getKey (accrueBucket fileExt b).fileStats e = getKey b.fileStats e := by
  by_cases h0 : fileExt = ""
  · simp [accrueBucket, h0]
  · simp [accrueBucket, h0, getKey_setKey_ne _ _ _ _ h]

theorem timerTick_not_idle (capturedDate : String) (now : Int) (fileExt : String)
    (w : ExtWorld) (days : List (String × DayBucket)) (b : DayBucket)
    (hidle : ¬ 30000 < now - w.lastActivityTime)
    (hp : getKey w.projectStats w.projectName = some days)
    (hd : getKey days capturedDate = some b) :
    timerTick capturedDate now fileExt w =
      { w with
          projectStats := setKey w.projectStats w.projectName
            (setKey days capturedDate (accrueBucket fileExt b)),
          store := setKey w.projectStats w.projectName
            (setKey days capturedDate (accrueBucket fileExt b)) } := by
  simp [timerTick, hidle, hp, hd]

/-- C1: an accounting tick that fires when the time elapsed since the last
recorded activity signal exceeds the 30000 ms idle threshold leaves the
whole state — in particular the active `DayBucket`'s `totalTime` and every
`fileStats` entry — unchanged. -/
theorem idle_tick_is_noop (w : ExtWorld) (capturedDate : String) (now : Int)
    (fileExt : String) (hidle : 30000 < now - w.lastActivityTime) :
    timerTick capturedDate now fileExt w = w := by
  simp [timerTick, hidle]

/-- Witness for `idle_tick_is_noop` at a concrete state: a tick 40 s after
the last activity changes nothing. -/
theorem idle_tick_is_noop_witness :
    timerTick "2026-10-09 (Friday)" 40000 ".ts"
      { timerStartTime := some 0, timers := ["2026-10-09 (Friday)"], statsTimers := 1,
        projectName := "P",
        projectStats := [("P", [("2026-10-09 (Friday)",
          { totalTime := 5000, fileStats := [(".ts", 5000)] })])],
        lastActivityTime := 0,
        store := [("P", [("2026-10-09 (Friday)",
          { totalTime := 5000, fileStats := [(".ts", 5000)] })])] } =
      { timerStartTime := some 0, timers := ["2026-10-09 (Friday)"], statsTimers := 1,
        projectName := "P",
        projectStats := [("P", [("2026-10-09 (Friday)",
          { totalTime := 5000, fileStats := [(".ts", 5000)] })])],
        lastActivityTime := 0,
        store := [("P", [("2026-10-09 (Friday)",
          { totalTime := 5000, fileStats := [(".ts", 5000)] })])] } :=
  idle_tick_is_noop _ _ _ _ (by decide)

/-! ### Bucket creation (claim C4) -/

theorem ensureBucket_id_of_present (ps : Stats) (p d : String) (days : List (String × DayBucket))
    (hp : getKey ps p = some days) (hd : (getKey days d).isSome) :
    ensureBucket p d ps = ps := by
  simp [ensureBucket, hp, hd]

/-- C4: `ensureBucket` yields a state in which the (project, date) bucket
exists; the bucket is the zeroed one exactly when it was absent, and the
pre-existing one otherwise (in which case the whole map is untouched); and
performing the ensure step twice equals performing it once. -/
theorem ensureBucket_correct (ps : Stats) (p d : String) :
    (∃ days, getKey (ensureBucket p d ps) p = some days ∧
        getKey days d =
          some (((getKey ps p).bind (fun ds => getKey ds d)).getD
            { totalTime := 0, fileStats := [] })) ∧
    (∀ b, (getKey ps p).bind (fun ds => getKey ds d) = some b → ensureBucket p d ps = ps) ∧
    ensureBucket p d (ensureBucket p d ps) = ensureBucket p d ps := by
  refine ⟨?_, ?_, ?_⟩
  · cases h1 : getKey ps p with
    | none =>
        refine ⟨setKey [] d { totalTime := 0, fileStats := [] }, ?_, ?_⟩
        · simp [ensureBucket, h1, getKey]
        · simp [h1, getKey]
    | some days =>
        cases h2 : getKey days d with
        | none =>
            refine ⟨setKey days d { totalTime := 0, fileStats := [] }, ?_, ?_⟩
            · simp [ensureBucket, h1, h2]
            · simp [h1, h2]
        | some b =>
            exact ⟨days, by simp [ensureBucket, h1, h2], by simp [h1, h2]⟩
  · intro b hb
    cases h1 : getKey ps p with
    | none => simp [h1] at hb
    | some days =>
        rw [h1] at hb
        simp at hb
        exact ensureBucket_id_of_present ps p d days h1 (by simp [hb])
  · have hex : ∃ days, getKey (ensureBucket p d ps) p = some days ∧
        (getKey days d).isSome := by
      cases h1 : getKey ps p with
      | none =>
          refine ⟨setKey [] d { totalTime := 0, fileStats := [] }, ?_, ?_⟩
          · simp [ensureBucket, h1, getKey]
          · simp [getKey]
      | some days =>
          cases h2 : getKey days d with
          | none =>
              refine ⟨setKey days d { totalTime := 0, fileStats := [] }, ?_, ?_⟩
              · simp [ensureBucket, h1, h2]
              · simp
          | some b =>
              exact ⟨days, by simp [ensureBucket, h1, h2], by simp [h2]⟩
    obtain ⟨days, hp, hd⟩ := hex
    exact ensureBucket_id_of_present _ p d days hp hd

/-- Witness for `ensureBucket_correct`: an existing bucket is returned as-is
(the repeated-ensure conjunct applied at a concrete populated map). -/
theorem ensureBucket_correct_witness :
    ensureBucket "P" "D" [("P", [("D", { totalTime := 7000, fileStats := [(".ts", 4000)] })])] =
      [("P", [("D", { totalTime := 7000, fileStats := [(".ts", 4000)] })])] :=
  (ensureBucket_correct
      [("P", [("D", { totalTime := 7000, fileStats := [(".ts", 4000)] })])] "P" "D").2.1
    { totalTime := 7000, fileStats := [(".ts", 4000)] } (by decide)

/-! ### Linear accrual (claims C2, C10) -/

theorem runTicks_bucket (capturedDate fileExt : String) (ts : List Int) :
    ∀ (w : ExtWorld) (days : List (String × DayBucket)) (b : DayBucket),
    getKey w.projectStats w.projectName = some days →
    getKey days capturedDate = some b →
    (∀ t ∈ ts, ¬ 30000 < t - w.lastActivityTime) →
    (runTicks capturedDate fileExt ts w).projectName = w.projectName ∧
    (runTicks capturedDate fileExt ts w).lastActivityTime = w.lastActivityTime ∧
    ∃ days' b',
      getKey (runTicks capturedDate fileExt ts w).projectStats w.projectName = some days' ∧
      getKey days' capturedDate = some b' ∧
      b'.totalTime = b.totalTime + 1000 * ts.length ∧
      (fileExt ≠ "" →
        (getKey b'.fileStats fileExt).getD 0 =
          (getKey b.fileStats fileExt).getD 0 + 1000 * ts.length) ∧
      (fileExt ≠ "" → (getKey b.fileStats fileExt).isSome →
        (getKey b'.fileStats fileExt).isSome) := by
  induction ts with
  | nil =>
      intro w days b hp hd hactive
      exact ⟨rfl, rfl, days, b, hp, hd, by simp, by simp, fun _ h => h⟩
  | cons t rest ih =>
      intro w days b hp hd hactive
      have hidle : ¬ 30000 < t - w.lastActivityTime := hactive t (by simp)
      have hstep := timerTick_not_idle capturedDate t fileExt w days b hidle hp hd
      have hrun : runTicks capturedDate fileExt (t :: rest) w =
          runTicks capturedDate fileExt rest (timerTick capturedDate t fileExt w) := rfl
      set w' := timerTick capturedDate t fileExt w with hw'
      have hpn : w'.projectName = w.projectName := by rw [hstep]
      have hla : w'.lastActivityTime = w.lastActivityTime := by rw [hstep]
      have hp' : getKey w'.projectStats w'.projectName =
          some (setKey days capturedDate (accrueBucket fileExt b)) := by
        rw [hstep]
        simp
      have hd' : getKey (setKey days capturedDate (accrueBucket fileExt b)) capturedDate =
          some (accrueBucket fileExt b) := by simp
      have hactive' : ∀ s ∈ rest, ¬ 30000 < s - w'.lastActivityTime := by
        intro s hs
        rw [hla]
        exact hactive s (by simp [hs])
      obtain ⟨hn, hl, days', b', hgp, hgd, htot, hext, hsome⟩ :=
        ih w' (setKey days capturedDate (accrueBucket fileExt b)) (accrueBucket fileExt b)
          hp' hd' hactive'
      rw [hrun]
      refine ⟨by rw [hn, hpn], by rw [hl, hla], days', b', by rw [← hpn]; exact hgp, hgd,
        ?_, ?_, ?_⟩
      · rw [htot, accrueBucket_totalTime]
        simp
        omega
      · intro hne
        have := hext hne
        rw [this, accrueBucket_getKey_self fileExt b hne]
        simp
        omega
      · intro hne _
        exact hsome hne (by rw [accrueBucket_getKey_self fileExt b hne]; rfl)

/-- C2: with the clock started and a freshly created zeroed bucket for the
captured (project, date), a run of N ticks during which the idle threshold
never triggers and the active extension is a constant resolvable `fileExt`
leaves the bucket with `totalTime = N * 1000` and
`fileStats[fileExt] = N * 1000` (the entry existing as soon as N ≥ 1). -/
theorem linear_accrual (w : ExtWorld) (capturedDate fileExt : String) (ts : List Int)
    (days : List (String × DayBucket))
    (hp : getKey w.projectStats w.projectName = some days)
    (hd : getKey days capturedDate = some { totalTime := 0, fileStats := [] })
    (hext : fileExt ≠ "")
    (hactive : ∀ t ∈ ts, ¬ 30000 < t - w.lastActivityTime) :
    ∃ days' b',
      getKey (runTicks capturedDate fileExt ts w).projectStats w.projectName = some days' ∧
      getKey days' capturedDate = some b' ∧
      b'.totalTime = 1000 * ts.length ∧
      (getKey b'.fileStats fileExt).getD 0 = 1000 * ts.length ∧
      (ts ≠ [] → getKey b'.fileStats fileExt = some (1000 * ts.length)) := by
  cases ts with
  | nil =>
      refine ⟨days, { totalTime := 0, fileStats := [] }, hp, hd, by simp, by simp [getKey], ?_⟩
      intro h
      exact absurd rfl h
  | cons t rest =>
      have hidle : ¬ 30000 < t - w.lastActivityTime := hactive t (by simp)
      have hstep := timerTick_not_idle capturedDate t fileExt w days
        { totalTime := 0, fileStats := [] } hidle hp hd
      have hrun : runTicks capturedDate fileExt (t :: rest) w =
          runTicks capturedDate fileExt rest (timerTick capturedDate t fileExt w) := rfl
      set b1 := accrueBucket fileExt { totalTime := 0, fileStats := [] } with hb1
      set w' := timerTick capturedDate t fileExt w with hw'
      have hpn : w'.projectName = w.projectName := by rw [hstep]
      have hla : w'.lastActivityTime = w.lastActivityTime := by rw [hstep]
      have hp' : getKey w'.projectStats w'.projectName =
          some (setKey days capturedDate b1) := by
        rw [hstep]
        simp
      have hd' : getKey (setKey days capturedDate b1) capturedDate = some b1 := by simp
      have hactive' : ∀ s ∈ rest, ¬ 30000 < s - w'.lastActivityTime := by
        intro s hs
        rw [hla]
        exact hactive s (by simp [hs])
      obtain ⟨hn, hl, days', b', hgp, hgd, htot, hgd0, hsome⟩ :=
        runTicks_bucket capturedDate fileExt rest w' (setKey days capturedDate b1) b1
          hp' hd' hactive'
      have hb1tot : b1.totalTime = 1000 := by
        rw [hb1, accrueBucket_totalTime]
      have hb1ext : getKey b1.fileStats fileExt = some 1000 := by
        rw [hb1, accrueBucket_getKey_self fileExt _ hext]
        simp [getKey]
      refine ⟨days', b', ?_, hgd, ?_, ?_, ?_⟩
      · rw [hrun, ← hpn]
        exact hgp
      · rw [htot, hb1tot]
        simp
        omega
      · rw [hgd0 hext, hb1ext]
        simp
        omega
      · intro _
        have hs : (getKey b'.fileStats fileExt).isSome :=
          hsome hext (by rw [hb1ext]; rfl)
        obtain ⟨v, hv⟩ := Option.isSome_iff_exists.mp hs
        rw [hv]
        have := hgd0 hext
        rw [hv, hb1ext] at this
        simp at this
        rw [this]
        congr 1
        simp
        omega

/-- Witness for `linear_accrual`: five non-idle 1000 ms ticks on a fresh
bucket give `totalTime = 5000` and `fileStats[".ts"] = 5000`. -/
theorem linear_accrual_witness :
    ∃ days' b',
      getKey (runTicks "D" ".ts" [0, 0, 0, 0, 0]
          { timerStartTime := some 0, timers := ["D"], statsTimers := 1, projectName := "P",
            projectStats := [("P", [("D", { totalTime := 0, fileStats := [] })])],
            lastActivityTime := 0,
            store := [("P", [("D", { totalTime := 0, fileStats := [] })])] }).projectStats
        "P" = some days' ∧
      getKey days' "D" = some b' ∧
      b'.totalTime = 5000 ∧
      (getKey b'.fileStats ".ts").getD 0 = 5000 ∧
      (([0, 0, 0, 0, 0] : List Int) ≠ [] → getKey b'.fileStats ".ts" = some 5000) :=
  linear_accrual
    { timerStartTime := some 0, timers := ["D"], statsTimers := 1, projectName := "P",
      projectStats := [("P", [("D", { totalTime := 0, fileStats := [] })])],
      lastActivityTime := 0,
      store := [("P", [("D", { totalTime := 0, fileStats := [] })])] }
    "D" ".ts" [0, 0, 0, 0, 0] [("D", { totalTime := 0, fileStats := [] })]
    (by decide) (by decide) (by decide) (by decide)

theorem startTrackingTime_of_stopped (now tz : Int) (wsName : Option String) (w : ExtWorld)
    (h : w.timerStartTime = none) :
    startTrackingTime now tz wsName w =
      { timerStartTime := some now
        timers := w.timers ++ [getCurrentDate now tz]
        statsTimers := w.statsTimers + 1
        projectName := resolveProject wsName
        projectStats := ensureBucket (resolveProject wsName) (getCurrentDate now tz) w.store
        lastActivityTime := w.lastActivityTime
        store := w.store } := by
  simp [startTrackingTime, h]

/-- C10: `lastActivityTime` is initialized to the load instant `t0`, so after
a `start()` a tick that fires within 30000 ms of `t0` accrues 1000 ms to the
session's bucket even though `onUserActivity` never ran. -/
theorem initial_activity_accrues (t0 startNow tickNow tz : Int) (wsName : Option String)
    (stored : Stats) (fileExt : String)
    (hfresh : ¬ 30000 < tickNow - t0) :
    ∃ days b days' b',
      getKey (startTrackingTime startNow tz wsName (initialWorld t0 stored)).projectStats
        (startTrackingTime startNow tz wsName (initialWorld t0 stored)).projectName =
        some days ∧
      getKey days (getCurrentDate startNow tz) = some b ∧
      getKey (timerTick (getCurrentDate startNow tz) tickNow fileExt
          (startTrackingTime startNow tz wsName (initialWorld t0 stored))).projectStats
        (startTrackingTime startNow tz wsName (initialWorld t0 stored)).projectName =
        some days' ∧
      getKey days' (getCurrentDate startNow tz) = some b' ∧
      b'.totalTime = b.totalTime + 1000 := by
  have hs := startTrackingTime_of_stopped startNow tz wsName (initialWorld t0 stored) rfl
  set w1 := startTrackingTime startNow tz wsName (initialWorld t0 stored) with hw1
  obtain ⟨days, hdays, hbucket⟩ :=
    (ensureBucket_correct stored (resolveProject wsName) (getCurrentDate startNow tz)).1
  have hp : getKey w1.projectStats w1.projectName = some days := by
    rw [hs]
    exact hdays
  have hla : w1.lastActivityTime = t0 := by rw [hs]; rfl
  have hidle : ¬ 30000 < tickNow - w1.lastActivityTime := by rw [hla]; exact hfresh
  have hstep := timerTick_not_idle (getCurrentDate startNow tz) tickNow fileExt w1 days _
    hidle hp hbucket
  refine ⟨days, _, setKey days (getCurrentDate startNow tz)
      (accrueBucket fileExt (((getKey stored (resolveProject wsName)).bind
        (fun ds => getKey ds (getCurrentDate startNow tz))).getD
        { totalTime := 0, fileStats := [] })),
    accrueBucket fileExt (((getKey stored (resolveProject wsName)).bind
      (fun ds => getKey ds (getCurrentDate startNow tz))).getD
      { totalTime := 0, fileStats := [] }), hp, hbucket, ?_, by simp, ?_⟩
  · rw [hstep]
    simp
  · rw [accrueBucket_totalTime]

/-- Witness for `initial_activity_accrues`: load at 0, start at 0, first tick
at 1000 ms, no activity signal ever — the bucket still gains 1000 ms. -/
theorem initial_activity_accrues_witness :
    ∃ days b days' b',
      getKey (startTrackingTime 0 0 none (initialWorld 0 [])).projectStats
        (startTrackingTime 0 0 none (initialWorld 0 [])).projectName = some days ∧
      getKey days (getCurrentDate 0 0) = some b ∧
      getKey (timerTick (getCurrentDate 0 0) 1000 ""
          (startTrackingTime 0 0 none (initialWorld 0 []))).projectStats
        (startTrackingTime 0 0 none (initialWorld 0 [])).projectName = some days' ∧
      getKey days' (getCurrentDate 0 0) = some b' ∧
      b'.totalTime = b.totalTime + 1000 :=
  initial_activity_accrues 0 0 1000 0 none [] "" (by decide)

/-! ### The fileStats-sum invariant (claim C5) -/

/-- The per-bucket invariant: the sum of the `fileStats` values never exceeds
`totalTime` (time is attributed to an extension only when one resolves). -/
def bucketInv (b : DayBucket) : Prop := sumVals b.fileStats ≤ b.totalTime

/-- Every bucket reachable in a `projectStats` map satisfies `bucketInv`. -/
def statsInv (ps : Stats) : Prop :=
  ∀ p days, getKey ps p = some days → ∀ d b, getKey days d = some b → bucketInv b

/-- The invariant over both copies of the map: the in-memory one and the
persisted one. -/
def worldInv (w : ExtWorld) : Prop := statsInv w.projectStats ∧ statsInv w.store

theorem statsInv_nil : statsInv [] := by
  intro p days h
  simp [getKey] at h

theorem accrueBucket_bucketInv (fileExt : String) (b : DayBucket) (h : bucketInv b) :
    bucketInv (accrueBucket fileExt b) := by
  by_cases h0 : fileExt = ""
  · simp only [bucketInv, accrueBucket, h0, if_pos]
    unfold bucketInv at h
    omega
  · simp only [bucketInv, accrueBucket, h0, if_neg, not_false_iff]
    rw [sumVals_setKey_add]
    unfold bucketInv at h
    omega

theorem statsInv_set (ps : Stats) (p d : String) (days : List (String × DayBucket))
    (nb : DayBucket) (hps : statsInv ps) (hp : getKey ps p = some days)
    (hnb : bucketInv nb) : statsInv (setKey ps p (setKey days d nb)) := by
  intro p' days' h' d' b' h''
  by_cases hpp : p' = p
  · subst hpp
    rw [getKey_setKey_self] at h'
    injection h' with h'
    subst h'
    by_cases hdd : d' = d
    · subst hdd
      rw [getKey_setKey_self] at h''
      injection h'' with h''
      subst h''
      exact hnb
    · rw [getKey_setKey_ne _ _ _ _ hdd] at h''
      exact hps _ days hp d' b' h''
  · rw [getKey_setKey_ne _ _ _ _ hpp] at h'
    exact hps p' days' h' d' b' h''

theorem ensureBucket_statsInv (ps : Stats) (p d : String) (hps : statsInv ps) :
    statsInv (ensureBucket p d ps) := by
  have hzero : bucketInv { totalTime := 0, fileStats := [] } := by
    simp [bucketInv, sumVals]
  cases h1 : getKey ps p with
  | none =>
      have h2 : ensureBucket p d ps =
          setKey (setKey ps p []) p (setKey [] d { totalTime := 0, fileStats := [] }) := by
        simp [ensureBucket, h1, getKey]
      rw [h2]
      refine statsInv_set (setKey ps p []) p d [] _ ?_ (by simp) hzero
      intro p' days' h' d' b' h''
      by_cases hpp : p' = p
      · subst hpp
        rw [getKey_setKey_self] at h'
        injection h' with h'
        subst h'
        simp [getKey] at h''
      · rw [getKey_setKey_ne _ _ _ _ hpp] at h'
        exact hps p' days' h' d' b' h''
  | some days =>
      cases h2 : getKey days d with
      | none =>
          have h3 : ensureBucket p d ps =
              setKey ps p (setKey days d { totalTime := 0, fileStats := [] }) := by
            simp [ensureBucket, h1, h2]
          rw [h3]
          exact statsInv_set ps p d days _ hps h1 hzero
      | some b =>
          rw [ensureBucket_id_of_present ps p d days h1 (by simp [h2])]
          exact hps

theorem showProjectStats_state_eq (now tz : Int) (w : ExtWorld) :
    (showProjectStats now tz w).1 = { w with projectStats := w.store } := by
  by_cases h0 : w.projectName = ""
  · simp [showProjectStats, h0]
  · cases h1 : getKey w.store w.projectName with
    | none => simp [showProjectStats, h0, h1]
    | some stats =>
        cases h2 : getKey stats (getCurrentDate now tz) with
        | none => simp [showProjectStats, h0, h1, h2]
        | some data => simp [showProjectStats, h0, h1, h2]

/-- C5: the per-bucket inequality `sumVals fileStats ≤ totalTime` holds of
the freshly created zeroed bucket, is preserved by a single accrual (which
adds the 1000 ms tick period to `totalTime` and to at most one `fileStats`
entry, only when an extension resolves), and — lifted to every bucket of
both the in-memory and the persisted map — is preserved by every operation
of the module. -/
theorem fileStats_sum_le_totalTime_invariant :
    bucketInv { totalTime := 0, fileStats := [] } ∧
    (∀ fileExt b, bucketInv b → bucketInv (accrueBucket fileExt b)) ∧
    (∀ w capturedDate now fileExt, worldInv w →
      worldInv (timerTick capturedDate now fileExt w)) ∧
    (∀ w now tz wsName, worldInv w → worldInv (startTrackingTime now tz wsName w)) ∧
    (∀ w now tz, worldInv w → worldInv (showProjectStats now tz w).1) ∧
    (∀ w, worldInv w → worldInv (stopTrackingTime w)) ∧
    (∀ w now, worldInv w → worldInv (onUserActivity now w)) := by
  refine ⟨by simp [bucketInv, sumVals], accrueBucket_bucketInv, ?_, ?_, ?_, ?_, ?_⟩
  · intro w capturedDate now fileExt h
    by_cases hc : 30000 < now - w.lastActivityTime
    · simpa [timerTick, hc] using h
    · cases hp : getKey w.projectStats w.projectName with
      | none => simpa [timerTick, hc, hp] using h
      | some days =>
          cases hd : getKey days capturedDate with
          | none => simpa [timerTick, hc, hp, hd] using h
          | some b =>
              rw [timerTick_not_idle capturedDate now fileExt w days b hc hp hd]
              have hinv : statsInv (setKey w.projectStats w.projectName
                  (setKey days capturedDate (accrueBucket fileExt b))) :=
                statsInv_set _ _ _ _ _ h.1 hp
                  (accrueBucket_bucketInv fileExt b (h.1 _ _ hp _ _ hd))
              exact ⟨hinv, hinv⟩
  · intro w now tz wsName h
    by_cases hc : w.timerStartTime.isSome
    · simp only [startTrackingTime, hc, if_pos]
      exact ⟨h.2, h.2⟩
    · simp only [startTrackingTime, hc, if_neg, not_false_iff]
      exact ⟨ensureBucket_statsInv _ _ _ h.2, h.2⟩
  · intro w now tz h
    rw [showProjectStats_state_eq]
    exact ⟨h.2, h.2⟩
  · intro w h
    exact ⟨h.1, h.2⟩
  · intro w now h
    exact ⟨h.1, h.2⟩

theorem statsInv_single (p d : String) (b : DayBucket) (hb : bucketInv b) :
    statsInv [(p, [(d, b)])] := by
  intro p' days h' d' b' h''
  by_cases hp : p = p'
  · simp [getKey, hp] at h'
    subst h'
    by_cases hd : d = d'
    · simp [getKey, hd] at h''
      subst h''
      exact hb
    · simp [getKey, hd] at h''
  · simp [getKey, hp] at h'

/-- Witness for `fileStats_sum_le_totalTime_invariant`: the tick-preservation
conjunct applied to a concrete invariant-satisfying state. -/
theorem fileStats_sum_le_totalTime_invariant_witness :
    worldInv (timerTick "D" 1000 ".ts"
      { timerStartTime := some 0, timers := ["D"], statsTimers := 1, projectName := "P",
        projectStats := [("P", [("D", { totalTime := 2000, fileStats := [(".ts", 1000)] })])],
        lastActivityTime := 0,
        store := [("P", [("D", { totalTime := 2000, fileStats := [(".ts", 1000)] })])] }) :=
  fileStats_sum_le_totalTime_invariant.2.2.1 _ "D" 1000 ".ts"
    ⟨statsInv_single "P" "D" _ (by unfold bucketInv; decide),
     statsInv_single "P" "D" _ (by unfold bucketInv; decide)⟩

/-! ### start() while already running (claim C3) -/

/-- Counterexample to C3 as stated: with the clock Running, an in-memory
bucket holding 5000 ms, and an empty persisted store, a second `start()`
changes the in-memory `projectStats` (it is overwritten by the store
contents, which the source reloads BEFORE the already-tracking guard). -/
theorem start_when_running_counterexample :
    (startTrackingTime 1000 0 (some "P")
      { timerStartTime := some 0, timers := ["D"], statsTimers := 1, projectName := "P",
        projectStats := [("P", [("D", { totalTime := 5000, fileStats := [] })])],
        lastActivityTime := 0, store := [] }).projectStats ≠
      [("P", [("D", { totalTime := 5000, fileStats := [] })])] := by
  decide

/-- C3 (amended): calling `start()` while the clock is Running creates no
second tick schedule and leaves the clock state Running with the same
captured project and date and schedules, but it overwrites the in-memory
`projectStats` with the persisted store contents (so the in-memory
StatsStore is unchanged only when the two coincide); the store itself is
not written. -/
theorem start_when_running (now tz : Int) (wsName : Option String) (w : ExtWorld)
    (h : w.timerStartTime.isSome) :
    (startTrackingTime now tz wsName w).timers = w.timers ∧
    (startTrackingTime now tz wsName w).statsTimers = w.statsTimers ∧
    (startTrackingTime now tz wsName w).timerStartTime = w.timerStartTime ∧
    (startTrackingTime now tz wsName w).projectName = w.projectName ∧
    (startTrackingTime now tz wsName w).lastActivityTime = w.lastActivityTime ∧
    (startTrackingTime now tz wsName w).projectStats = w.store ∧
    (startTrackingTime now tz wsName w).store = w.store := by
  simp [startTrackingTime, h]

/-- Witness for `start_when_running` at a concrete Running state. -/
theorem start_when_running_witness :
    (startTrackingTime 1000 0 (some "Q")
        { timerStartTime := some 0, timers := ["D"], statsTimers := 1, projectName := "P",
          projectStats := [], lastActivityTime := 0,
          store := [("P", [("D", { totalTime := 3000, fileStats := [] })])] }).timers =
      ["D"] ∧
    (startTrackingTime 1000 0 (some "Q")
        { timerStartTime := some 0, timers := ["D"], statsTimers := 1, projectName := "P",
          projectStats := [], lastActivityTime := 0,
          store := [("P", [("D", { totalTime := 3000, fileStats := [] })])] }).statsTimers =
      1 ∧
    (startTrackingTime 1000 0 (some "Q")
        { timerStartTime := some 0, timers := ["D"], statsTimers := 1, projectName := "P",
          projectStats := [], lastActivityTime := 0,
          store := [("P", [("D", { totalTime := 3000, fileStats := [] })])] }).timerStartTime =
      some 0 ∧
    (startTrackingTime 1000 0 (some "Q")
        { timerStartTime := some 0, timers := ["D"], statsTimers := 1, projectName := "P",
          projectStats := [], lastActivityTime := 0,
          store := [("P", [("D", { totalTime := 3000, fileStats := [] })])] }).projectName =
      "P" ∧
    (startTrackingTime 1000 0 (some "Q")
        { timerStartTime := some 0, timers := ["D"], statsTimers := 1, projectName := "P",
          projectStats := [], lastActivityTime := 0,
          store := [("P", [("D", { totalTime := 3000, fileStats := [] })])] }).lastActivityTime =
      0 ∧
    (startTrackingTime 1000 0 (some "Q")
        { timerStartTime := some 0, timers := ["D"], statsTimers := 1, projectName := "P",
          projectStats := [], lastActivityTime := 0,
          store := [("P", [("D", { totalTime := 3000, fileStats := [] })])] }).projectStats =
      [("P", [("D", { totalTime := 3000, fileStats := [] })])] ∧
    (startTrackingTime 1000 0 (some "Q")
        { timerStartTime := some 0, timers := ["D"], statsTimers := 1, projectName := "P",
          projectStats := [], lastActivityTime := 0,
          store := [("P", [("D", { totalTime := 3000, fileStats := [] })])] }).store =
      [("P", [("D", { totalTime := 3000, fileStats := [] })])] :=
  start_when_running 1000 0 (some "Q")
    { timerStartTime := some 0, timers := ["D"], statsTimers := 1, projectName := "P",
      projectStats := [], lastActivityTime := 0,
      store := [("P", [("D", { totalTime := 3000, fileStats := [] })])] } (by decide)

/-! ### The report's effect on the data model (claim C7) -/

/-- Counterexample to C7 as stated: with an in-memory bucket that the
persisted store does not contain, running the report changes the in-memory
`projectStats` (the source reassigns it from the store before rendering). -/
theorem show_frame_counterexample :
    (showProjectStats 0 0
      { timerStartTime := some 0, timers := ["D"], statsTimers := 1, projectName := "P",
        projectStats := [("P", [("D", { totalTime := 1000, fileStats := [] })])],
        lastActivityTime := 0, store := [] }).1.projectStats ≠
      [("P", [("D", { totalTime := 1000, fileStats := [] })])] := by
  decide

/-- C7 (amended): the report never writes to the persisted store and leaves
every state component except the in-memory `projectStats` unchanged, but it
replaces the in-memory `projectStats` with the persisted store contents —
so the in-memory StatsStore is unchanged exactly when the persisted
contents already equal it. -/
theorem show_frame (now tz : Int) (w : ExtWorld) :
    (showProjectStats now tz w).1.store = w.store ∧
    (showProjectStats now tz w).1.projectStats = w.store ∧
    (showProjectStats now tz w).1.timerStartTime = w.timerStartTime ∧
    (showProjectStats now tz w).1.timers = w.timers ∧
    (showProjectStats now tz w).1.statsTimers = w.statsTimers ∧
    (showProjectStats now tz w).1.projectName = w.projectName ∧
    (showProjectStats now tz w).1.lastActivityTime = w.lastActivityTime ∧
    ((showProjectStats now tz w).1 = w ↔ w.projectStats = w.store) := by
  rw [showProjectStats_state_eq]
  refine ⟨rfl, rfl, rfl, rfl, rfl, rfl, rfl, ?_⟩
  constructor
  · intro h
    have := congrArg ExtWorld.projectStats h
    simpa using this.symm
  · intro h
    cases w
    simp_all

/-- Witness for `show_frame` at a concrete state whose persisted store and
in-memory map differ. -/
theorem show_frame_witness :
    (showProjectStats 0 0
        { timerStartTime := none, timers := [], statsTimers := 0, projectName := "P",
          projectStats := [("P", [("D", { totalTime := 1000, fileStats := [] })])],
          lastActivityTime := 0, store := [] }).1.store = [] ∧
    (showProjectStats 0 0
        { timerStartTime := none, timers := [], statsTimers := 0, projectName := "P",
          projectStats := [("P", [("D", { totalTime := 1000, fileStats := [] })])],
          lastActivityTime := 0, store := [] }).1.projectStats = [] ∧
    (showProjectStats 0 0
        { timerStartTime := none, timers := [], statsTimers := 0, projectName := "P",
          projectStats := [("P", [("D", { totalTime := 1000, fileStats := [] })])],
          lastActivityTime := 0, store := [] }).1.timerStartTime = none ∧
    (showProjectStats 0 0
        { timerStartTime := none, timers := [], statsTimers := 0, projectName := "P",
          projectStats := [("P", [("D", { totalTime := 1000, fileStats := [] })])],
          lastActivityTime := 0, store := [] }).1.timers = [] ∧
    (showProjectStats 0 0
        { timerStartTime := none, timers := [], statsTimers := 0, projectName := "P",
          projectStats := [("P", [("D", { totalTime := 1000, fileStats := [] })])],
          lastActivityTime := 0, store := [] }).1.statsTimers = 0 ∧
    (showProjectStats 0 0
        { timerStartTime := none, timers := [], statsTimers := 0, projectName := "P",
          projectStats := [("P", [("D", { totalTime := 1000, fileStats := [] })])],
          lastActivityTime := 0, store := [] }).1.projectName = "P" ∧
    (showProjectStats 0 0
        { timerStartTime := none, timers := [], statsTimers := 0, projectName := "P",
          projectStats := [("P", [("D", { totalTime := 1000, fileStats := [] })])],
          lastActivityTime := 0, store := [] }).1.lastActivityTime = 0 ∧
    ((showProjectStats 0 0
        { timerStartTime := none, timers := [], statsTimers := 0, projectName := "P",
          projectStats := [("P", [("D", { totalTime := 1000, fileStats := [] })])],
          lastActivityTime := 0, store := [] }).1 =
        { timerStartTime := none, timers := [], statsTimers := 0, projectName := "P",
          projectStats := [("P", [("D", { totalTime := 1000, fileStats := [] })])],
          lastActivityTime := 0, store := [] } ↔
      ([("P", [("D", { totalTime := 1000, fileStats := [] })])] : Stats) = []) :=
  show_frame 0 0
    { timerStartTime := none, timers := [], statsTimers := 0, projectName := "P",
      projectStats := [("P", [("D", { totalTime := 1000, fileStats := [] })])],
      lastActivityTime := 0, store := [] }

/-! ### The report's rendering (claim C6) -/

/-- C6: given a current project, the report emits a no-tracked-time result
(one of the two no-data messages) when no bucket exists for the current
date; otherwise it emits the bucket's total time rendered in minutes to one
decimal place together with each recorded extension's time in the same
unit. The final two conjuncts justify "in the order the extensions were
first recorded": the rendering walks `fileStats` in stored order, and an
accrual appends a newly seen extension at the end while leaving the key
order of already-seen extensions unchanged. -/
theorem showProjectStats_report (now tz : Int) (w : ExtWorld)
    (hpn : w.projectName ≠ "") :
    ((getKey w.store w.projectName).bind
        (fun stats => getKey stats (getCurrentDate now tz)) = none →
      (showProjectStats now tz w).2 = "No stats available." ∨
      (showProjectStats now tz w).2 = "No tracked time today.") ∧
    (∀ stats data, getKey w.store w.projectName = some stats →
      getKey stats (getCurrentDate now tz) = some data →
      (showProjectStats now tz w).2 =
        "📊 **Project: " ++ w.projectName ++ "**\n📅 **" ++ getCurrentDate now tz ++
          "**\n🕒 Total: " ++ fmtMin data.totalTime ++ " min\n" ++
          renderEntries data.fileStats) ∧
    (∀ b fileExt, fileExt ≠ "" → getKey b.fileStats fileExt = none →
      (accrueBucket fileExt b).fileStats.map Prod.fst =
        b.fileStats.map Prod.fst ++ [fileExt]) ∧
    (∀ b fileExt, fileExt ≠ "" → (getKey b.fileStats fileExt).isSome →
      (accrueBucket fileExt b).fileStats.map Prod.fst = b.fileStats.map Prod.fst) := by
  refine ⟨?_, ?_, ?_, ?_⟩
  · intro habs
    cases h1 : getKey w.store w.projectName with
    | none =>
        left
        simp [showProjectStats, hpn, h1]
    | some stats =>
        cases h2 : getKey stats (getCurrentDate now tz) with
        | none =>
            right
            simp [showProjectStats, hpn, h1, h2]
        | some data =>
            rw [h1] at habs
            simp [h2] at habs
  · intro stats data h1 h2
    simp [showProjectStats, hpn, h1, h2]
  · intro b fileExt hne habs
    simp only [accrueBucket, hne, if_neg, not_false_iff]
    rw [keys_setKey]
    simp [habs]
  · intro b fileExt hne hsome
    simp only [accrueBucket, hne, if_neg, not_false_iff]
    rw [keys_setKey]
    simp [hsome]

/-- Witness for `showProjectStats_report`: the rendered message for a
concrete two-extension bucket, extensions listed in first-recorded order. -/
theorem showProjectStats_report_witness :
    (showProjectStats 0 0
        { timerStartTime := some 0, timers := [getCurrentDate 0 0], statsTimers := 1,
          projectName := "P", projectStats := [], lastActivityTime := 0,
          store := [("P", [(getCurrentDate 0 0,
            { totalTime := 120000, fileStats := [(".ts", 60000), (".js", 30000)] })])] }).2 =
      "📊 **Project: " ++ "P" ++ "**\n📅 **" ++ getCurrentDate 0 0 ++
        "**\n🕒 Total: " ++ fmtMin 120000 ++ " min\n" ++
        renderEntries [(".ts", 60000), (".js", 30000)] :=
  (showProjectStats_report 0 0
      { timerStartTime := some 0, timers := [getCurrentDate 0 0], statsTimers := 1,
        projectName := "P", projectStats := [], lastActivityTime := 0,
        store := [("P", [(getCurrentDate 0 0,
          { totalTime := 120000, fileStats := [(".ts", 60000), (".js", 30000)] })])] }
      (by decide)).2.1
    [(getCurrentDate 0 0,
      { totalTime := 120000, fileStats := [(".ts", 60000), (".js", 30000)] })]
    { totalTime := 120000, fileStats := [(".ts", 60000), (".js", 30000)] }
    (by simp [getKey]) (by simp [getKey])

/-! ### The date key (claim C8) -/

/-- Counterexample to C8 as stated: at the instant 1791576000000 ms
(2026-10-09 20:00 UTC) with a +5 h local offset, the code's date key is
"2026-10-09 (Saturday)" — the date part comes from the UTC calendar day —
while a key computed from the local wall-clock date, as the claim states,
would be "2026-10-10 (Saturday)". -/
theorem getCurrentDate_local_counterexample :
    getCurrentDate 1791576000000 18000000 ≠ localDateKeySpec 1791576000000 18000000 := by
  decide

/-- C8 (amended): the date key has the format "YYYY-MM-DD (WeekdayName)",
but the date part is computed from the UTC calendar date of the instant
(`toISOString`) while only the weekday name is computed from the local
wall-clock date (`getDay`); the key agrees with the spec's all-local key
exactly when the UTC and local calendar dates coincide (in particular
always when the local offset is zero). -/
theorem getCurrentDate_format (now tz : Int) :
    getCurrentDate now tz =
      isoDatePart now ++ " (" ++ (dayNames.getD (jsGetDay now tz) "") ++ ")" ∧
    (getCurrentDate now tz = localDateKeySpec now tz ↔
      isoDatePart now = isoDatePart (now + tz)) ∧
    (tz = 0 → getCurrentDate now tz = localDateKeySpec now tz) := by
  refine ⟨rfl, ?_, ?_⟩
  · constructor
    · intro h
      unfold getCurrentDate localDateKeySpec at h
      have hd := congrArg String.data h
      simp only [String.data_append] at hd
      have h1 := List.append_cancel_right hd
      have h2 := List.append_cancel_right h1
      have h3 := List.append_cancel_right h2
      exact String.ext h3
    · intro h
      unfold getCurrentDate localDateKeySpec
      rw [h]
  · intro h
    subst h
    unfold getCurrentDate localDateKeySpec
    rw [add_zero]

/-- Witness for `getCurrentDate_format` at the epoch with zero offset. -/
theorem getCurrentDate_format_witness :
    getCurrentDate 0 0 =
      isoDatePart 0 ++ " (" ++ (dayNames.getD (jsGetDay 0 0) "") ++ ")" ∧
    (getCurrentDate 0 0 = localDateKeySpec 0 0 ↔ isoDatePart 0 = isoDatePart (0 + 0)) ∧
    ((0 : Int) = 0 → getCurrentDate 0 0 = localDateKeySpec 0 0) :=
  getCurrentDate_format 0 0

/-! ### The load path (claim C9)

`activate` and `startTrackingTime`/`showProjectStats` load the persisted
payload with `context.globalState.get('projectStats', \x7b\x7d) || \x7b\x7d`
(extension.ts lines 236, 304, 335). To talk about MALFORMED payloads — which
a typed `Stats` cannot represent — this section models the payload as a
JSON-like value and the load expression over it. -/

/-- A JSON-like persisted value, as `globalState.get` can return it. -/
inductive JsVal where
  | null : JsVal
  | bool : Bool → JsVal
  | num : Int → JsVal
  | str : String → JsVal
  | obj : List (String × JsVal) → JsVal

/-- JavaScript truthiness on persisted values: `null`, `false`, `0` and the
empty string are falsy; every object (even empty) is truthy. -/
def jsFalsy : JsVal → Bool
  | .null => true
  | .bool b => !b
  | .num n => n == 0
  | .str s => s == ""
  | .obj _ => false

/-- Embedding of the load expression
`context.globalState.get('projectStats', \x7b\x7d) || \x7b\x7d`: the stored
value when a value is stored, the empty object when the key is absent, and
the empty object again when the stored value is falsy. It is a total
function: no exception can escape it. -/
def loadProjectStats (stored : Option JsVal) : JsVal :=
  let v := stored.getD (JsVal.obj [])
  if jsFalsy v then JsVal.obj [] else v

/-- A non-negative-millisecond value of the persisted schema. -/
def isMsVal : JsVal → Bool
  | .num n => decide (0 ≤ n)
  | _ => false

/-- A well-formed `fileStats` object: every value a millisecond count. -/
def isFileStatsVal : JsVal → Bool
  | .obj fs => fs.all (fun p => isMsVal p.2)
  | _ => false

/-- A well-formed DayBucket object: a `totalTime` millisecond field and a
`fileStats` object. -/
def isBucketVal : JsVal → Bool
  | .obj fields =>
      match getKey fields "totalTime", getKey fields "fileStats" with
      | some t, some f => isMsVal t && isFileStatsVal f
      | _, _ => false
  | _ => false

/-- A well-formed per-project map: every value a DayBucket object. -/
def isDaysVal : JsVal → Bool
  | .obj ds => ds.all (fun p => isBucketVal p.2)
  | _ => false

/-- A well-formed persisted `projectStats` payload. -/
def isStatsVal : JsVal → Bool
  | .obj ps => ps.all (fun p => isDaysVal p.2)
  | _ => false

/-- Counterexample to C9 as stated: the string payload "garbage" is
malformed (not a `projectStats`-shaped object), yet the load expression
adopts it as-is instead of initializing to the empty structure — the
`|| \x7b\x7d` guard only catches falsy values. -/
theorem load_recovery_counterexample :
    isStatsVal (JsVal.str "garbage") = false ∧
    loadProjectStats (some (JsVal.str "garbage")) ≠ JsVal.obj [] := by
  constructor
  · rfl
  · intro h
    rw [show loadProjectStats (some (JsVal.str "garbage")) = JsVal.str "garbage" from rfl] at h
    exact JsVal.noConfusion h

/-- C9 (amended): the load expression is a total function — no exception
reaches the caller — and yields the empty structure when the payload is
absent or falsy (which covers `null` corruption); any truthy payload,
well-formed or not, is adopted unchanged, so its result is always either
the empty structure or the stored payload itself. -/
theorem load_recovery (stored : Option JsVal) :
    (stored = none → loadProjectStats stored = JsVal.obj []) ∧
    (∀ v, stored = some v → jsFalsy v = true → loadProjectStats stored = JsVal.obj []) ∧
    (∀ v, stored = some v → jsFalsy v = false → loadProjectStats stored = v) ∧
    (loadProjectStats stored = JsVal.obj [] ∨
      ∃ v, stored = some v ∧ loadProjectStats stored = v) := by
  refine ⟨?_, ?_, ?_, ?_⟩
  · intro h
    subst h
    rfl
  · intro v hv hf
    subst hv
    simp [loadProjectStats, hf]
  · intro v hv hf
    subst hv
    simp [loadProjectStats, hf]
  · cases stored with
    | none => left; rfl
    | some v =>
        cases hf : jsFalsy v with
        | true => left; simp [loadProjectStats, hf]
        | false => right; exact ⟨v, rfl, by simp [loadProjectStats, hf]⟩

/-- Witness for `load_recovery`: a stored truthy payload is adopted as-is,
and an absent payload yields the empty structure. -/
theorem load_recovery_witness :
    loadProjectStats (some (JsVal.obj [("P", JsVal.obj [])])) =
      JsVal.obj [("P", JsVal.obj [])] ∧
    loadProjectStats none = JsVal.obj [] :=
  ⟨(load_recovery (some (JsVal.obj [("P", JsVal.obj [])]))).2.2.1
      (JsVal.obj [("P", JsVal.obj [])]) rfl rfl,
    (load_recovery none).1 rfl⟩

end CodeLeveling
